import Mathlib

/-!
Verification of the tournament-tracking core of `src/index.js` (a bridge
from the Pokémon Showdown websocket event stream to a Discord channel).

The embedding models the websocket `message` handler (lines 111-219), the
auto-cleanup interval callback (lines 222-240) and the `/tournaments`
slash-command handler (lines 243-264) as pure state-transition functions.
JavaScript strings are modelled through their character lists so that every
operation is structurally recursive and kernel-evaluable; `Map` is modelled
as an association list with `Map.get`/`has`/`set`/`delete` semantics
(unique keys, insertion order, `set` appends fresh keys).  External
Discord calls are modelled by an environment: whether `getDiscordChannel`
returns a channel (`channelOk`), whether `channel.send` succeeds
(`sendOk`), the id of the message a successful send returns
(`newMessageId`), the current clock (`now`), and the outcome of
`JSON.parse(...)?.results` on the payload of an end line (`parseResults`,
where `none` covers both a parse exception and absent/null `results`).
Side effects on the Discord channel are collected as a list of `Effect`s,
one per attempted sink call.
-/

/-- Character-list model of JavaScript `line.startsWith(p)`. -/
def strStartsWith (s p : String) : Bool := p.data.isPrefixOf s.data

/-- Splits a character list at every occurrence of `sep`, keeping empty
fields, as JavaScript `String.prototype.split` does with a one-character
separator. -/
def splitChAux (sep : Char) : List Char → List Char → List (List Char)
  | [], acc => [acc.reverse]
  | c :: cs, acc =>
    if c == sep then acc.reverse :: splitChAux sep cs []
    else splitChAux sep cs (c :: acc)

/-- Character-list model of JavaScript `s.split(sep)` for a one-character
separator: `splitOnCh '|' line` models `line.split("|")`. -/
def splitOnCh (sep : Char) (s : String) : List String :=
  (splitChAux sep s.data []).map String.mk

/-- Character-list model of JavaScript `s.slice(n)` for `n ≥ 0` (the source
only slices ASCII prefixes, where code units and characters coincide). -/
def strDrop (s : String) (n : Nat) : String := String.mk (s.data.drop n)

/-- One record of the `activeTournaments` map (source lines 82-90):
`{ room, format, name, messageId, startTime }`.  `messageId` is the opaque
id of the Discord announcement message, `startTime` the `Date.now()`
timestamp at creation. -/
structure Tournament where
  room : String
  format : String
  name : String
  messageId : Nat
  startTime : Nat
deriving Repr, DecidableEq

/-- The `activeTournaments` map (source line 81), keys = room names. -/
abbrev Registry := List (String × Tournament)

/-- `Map.prototype.get`: first (unique) entry with the given key. -/
def regGet : Registry → String → Option Tournament
  | [], _ => none
  | (k', v) :: rest, k => if k' == k then some v else regGet rest k

/-- `Map.prototype.has`. -/
def regHas (reg : Registry) (k : String) : Bool := (regGet reg k).isSome

/-- `Map.prototype.set`: overwrite in place when the key exists, otherwise
append (insertion order).  The source only calls it behind a `has` guard,
so in practice the append branch runs. -/
def regSet (reg : Registry) (k : String) (v : Tournament) : Registry :=
  if regHas reg k then reg.map (fun p => if p.1 == k then (k, v) else p)
  else reg ++ [(k, v)]

/-- `Map.prototype.delete` (keys are unique, so filtering removes at most
one entry). -/
def regDelete (reg : Registry) (k : String) : Registry :=
  reg.filter (fun p => p.1 != k)

/-- Mutable state of the process: the map `activeTournaments` (line 81)
and the room cursor `currentRoom` (line 91, `null` before the first `>`
marker). -/
structure BotState where
  activeTournaments : Registry
  currentRoom : Option String
deriving Repr, DecidableEq

/-- `activeTournaments.get(currentRoom)` as the source writes it (lines
160 and 204): when `currentRoom` is still `null` no string key can match,
so the lookup yields nothing. -/
def curTour (st : BotState) : Option Tournament :=
  match st.currentRoom with
  | none => none
  | some r => regGet st.activeTournaments r

/-- `MAX_TOURNAMENT_AGE = 30 * 60 * 1000` (line 38). -/
def MAX_TOURNAMENT_AGE : Nat := 30 * 60 * 1000

/-- `CLEANUP_INTERVAL = 5 * 60 * 1000` (line 39). -/
def CLEANUP_INTERVAL : Nat := 5 * 60 * 1000

/-- One attempted call on the Discord channel (the notification sink). -/
inductive Effect where
  /-- `channel.send("🏆 **Tournament Open!** ...")` (lines 138-143), with
  the displayed name and room. -/
  | announceOpen (name room : String)
  /-- `channel.send(msg)` with the winner / runner-up / third-place summary
  (lines 173-181): `w`, `r`, `t` from `const [w, r, t] = results`. -/
  | announceResults (name : String) (w : List String)
      (r t : Option (List String))
  /-- `channel.send("🏁 **Tournament Finished:** ...")` (line 183). -/
  | announceFinished (name : String)
  /-- `channel.messages.fetch(messageId)` followed by `.delete()`
  (lines 189-192, 209-212, 232-235): retraction of an announcement. -/
  | retract (messageId : Nat)
deriving Repr, DecidableEq

/-- Environment supplying the outcomes of all external calls made while
one line is processed. -/
structure Env where
  /-- `getDiscordChannel()` returns a channel (`true`) or `null`. -/
  channelOk : Bool
  /-- `channel.send` in the create branch resolves (`true`) or rejects. -/
  sendOk : Bool
  /-- `sent.id` of a successful create-branch send (line 153). -/
  newMessageId : Nat
  /-- `Date.now()` (line 154). -/
  now : Nat
  /-- Outcome of `JSON.parse(payload)?.results ?? null` under the
  enclosing try/catch (lines 163-168): `none` when parsing throws or
  `results` is absent/null, otherwise the array of placement arrays. -/
  parseResults : String → Option (List (List String))

/-- Classification of one stream line by the prefix tests of the handler,
in source order (lines 118, 124, 159, 200-203).  The four prefixes are
mutually exclusive, so the source's sequence of `if` blocks (each exiting
with `continue`) is this priority chain. -/
inductive LineKind where
  | roomMarker
  | create
  | tournEnd
  | forceEnd
  | other
deriving Repr, DecidableEq

/-- The prefix dispatch of the `ws.on("message")` line loop. -/
def classifyLine (line : String) : LineKind :=
  if strStartsWith line ">" then .roomMarker
  else if strStartsWith line "|tournament|create|" then .create
  else if strStartsWith line "|tournament|end|" then .tournEnd
  else if strStartsWith line "|tournament|forceend" ||
      strStartsWith line "|tournament|expire" then .forceEnd
  else .other

/-- `parts[3]` of a create line (line 128); the create prefix contains
three separators, so index 3 always exists and the default is never
consulted. -/
def createFormat (line : String) : String :=
  (splitOnCh '|' line).getD 3 ""

/-- `parts[6] ?? format` (line 129): `??` falls back only when index 6 is
absent — an empty string at index 6 is kept. -/
def createName (line : String) : String :=
  (splitOnCh '|' line).getD 6 (createFormat line)

/-- The `|tournament|create|` branch (lines 124-156).  Skipped when
`currentRoom` is falsy (`null` or `""`); de-duplicated on
`activeTournaments.has(currentRoom)`; a `null` channel or a rejected send
skips the insert. -/
def handleCreate (env : Env) (st : BotState) (line : String) :
    BotState × List Effect :=
  match st.currentRoom with
  | none => (st, [])
  | some room =>
    if room == "" then (st, [])
    else if regHas st.activeTournaments room then (st, [])
    else if env.channelOk then
      if env.sendOk then
        let tourRec : Tournament :=
          ⟨room, createFormat line, createName line, env.newMessageId, env.now⟩
        ({ st with
            activeTournaments := regSet st.activeTournaments room tourRec },
          [Effect.announceOpen (createName line) room])
      else (st, [Effect.announceOpen (createName line) room])
    else (st, [])

/-- The `|tournament|end|` branch (lines 159-197): look up the current
room's tournament (no-op when absent), parse the results payload after the
16-character prefix, send a summary when `results` is a non-empty array and
the generic finished message otherwise, attempt to retract the original
announcement, and delete the entry unconditionally. -/
def handleEnd (env : Env) (st : BotState) (line : String) :
    BotState × List Effect :=
  match st.currentRoom with
  | none => (st, [])
  | some room =>
    match regGet st.activeTournaments room with
    | none => (st, [])
    | some tour =>
      let results := env.parseResults (strDrop line 16)
      let reg' := regDelete st.activeTournaments room
      let st' := { st with activeTournaments := reg' }
      if env.channelOk then
        let notif :=
          match results with
          | some l =>
            if l.length != 0 then
              Effect.announceResults tour.name (l.getD 0 []) l[1]? l[2]?
            else Effect.announceFinished tour.name
          | none => Effect.announceFinished tour.name
        (st', [notif, Effect.retract tour.messageId])
      else (st', [])

/-- The `|tournament|forceend` / `|tournament|expire` branch (lines
200-217): no-op when the current room has no entry, otherwise a best-effort
retraction of the announcement and unconditional deletion. -/
def handleForceEnd (env : Env) (st : BotState) :
    BotState × List Effect :=
  match st.currentRoom with
  | none => (st, [])
  | some room =>
    match regGet st.activeTournaments room with
    | none => (st, [])
    | some tour =>
      let reg' := regDelete st.activeTournaments room
      let st' := { st with activeTournaments := reg' }
      if env.channelOk then (st', [Effect.retract tour.messageId])
      else (st', [])

/-- Processing of one line of a frame by the `ws.on("message")` handler
(lines 114-218).  A `>` marker overwrites the room cursor; empty and
unclassified lines are skipped. -/
def processLine (env : Env) (st : BotState) (line : String) :
    BotState × List Effect :=
  match classifyLine line with
  | .roomMarker => ({ st with currentRoom := some (strDrop line 1) }, [])
  | .create => handleCreate env st line
  | .tournEnd => handleEnd env st line
  | .forceEnd => handleForceEnd env st
  | .other => (st, [])

/-- Sequential processing of a list of lines (the `for (const line of
lines)` loop), concatenating the attempted sink calls. -/
def processLines (env : Env) (st : BotState) : List String →
    BotState × List Effect
  | [] => (st, [])
  | l :: ls =>
    let r1 := processLine env st l
    let r2 := processLines env r1.1 ls
    (r2.1, r1.2 ++ r2.2)

/-- One tick of the auto-cleanup interval (lines 222-240): every entry with
`now - startTime ≥ MAX_TOURNAMENT_AGE` gets a best-effort retraction of its
announcement (when the channel is reachable) and is deleted; younger
entries are left in place.  Ages use truncated subtraction, matching the
`<` comparison on the non-negative ages the source produces. -/
def sweep (channelOk : Bool) (now : Nat) : Registry →
    Registry × List Effect
  | [] => ([], [])
  | (room, tour) :: rest =>
    if now - tour.startTime < MAX_TOURNAMENT_AGE then
      let r := sweep channelOk now rest
      ((room, tour) :: r.1, r.2)
    else
      let r := sweep channelOk now rest
      (r.1, (if channelOk then [Effect.retract tour.messageId] else []) ++ r.2)

/-- The `/tournaments` slash-command handler (lines 246-263): reply with a
fixed message when the map is empty, otherwise with a bulleted
`name (room)` list; the handler only reads the state. -/
def handleTournamentsCommand (st : BotState) : BotState × String :=
  if st.activeTournaments.length == 0 then
    (st, "❌ There are no active tournaments right now.")
  else
    (st, "🏆 **Active Tournaments:**\n" ++
      String.intercalate "\n"
        (st.activeTournaments.map
          (fun p => "• **" ++ p.2.name ++ "** (" ++ p.2.room ++ ")")))

/-! ### Registry lemmas -/

theorem regGet_append_of_none {reg : Registry} {k : String} (v : Tournament)
    (h : regGet reg k = none) : regGet (reg ++ [(k, v)]) k = some v := by
  induction reg with
  | nil => simp [regGet]
  | cons hd tl ih =>
    obtain ⟨k', v'⟩ := hd
    rw [List.cons_append]
    cases he : k' == k with
    | true => simp [regGet, he] at h
    | false =>
      simp only [regGet, he, Bool.false_eq_true, if_false] at h ⊢
      exact ih h

theorem regHas_append_of_none {reg : Registry} {k : String} (v : Tournament)
    (h : regGet reg k = none) : regHas (reg ++ [(k, v)]) k = true := by
  unfold regHas
  rw [regGet_append_of_none v h]
  rfl

theorem regGet_regDelete_self (reg : Registry) (k : String) :
    regGet (regDelete reg k) k = none := by
  induction reg with
  | nil => rfl
  | cons hd tl ih =>
    obtain ⟨k', v'⟩ := hd
    unfold regDelete at ih ⊢
    rw [List.filter_cons]
    cases he : k' == k with
    | true => simpa [bne, he] using ih
    | false =>
      simp only [bne, he, Bool.not_false, if_pos, regGet, Bool.false_eq_true,
        if_false]
      exact ih

theorem regHas_regDelete_self (reg : Registry) (k : String) :
    regHas (regDelete reg k) k = false := by
  unfold regHas
  rw [regGet_regDelete_self]
  rfl

theorem regDelete_of_none {reg : Registry} {k : String}
    (h : regGet reg k = none) : regDelete reg k = reg := by
  induction reg with
  | nil => rfl
  | cons hd tl ih =>
    obtain ⟨k', v'⟩ := hd
    cases he : k' == k with
    | true => simp [regGet, he] at h
    | false =>
      simp only [regGet, he, Bool.false_eq_true, if_false] at h
      unfold regDelete at ih ⊢
      rw [List.filter_cons]
      simp only [bne, he, Bool.not_false, if_pos, List.cons.injEq, true_and]
      exact ih h

theorem regDelete_append_singleton_self {reg : Registry} {k : String}
    (v : Tournament) (h : regGet reg k = none) :
    regDelete (reg ++ [(k, v)]) k = reg := by
  unfold regDelete
  rw [List.filter_append]
  have h1 : List.filter (fun p => p.1 != k) reg = reg := regDelete_of_none h
  rw [h1]
  simp [List.filter_cons]

/-! ### Reconciler lemmas -/

theorem processLines_of_noop {env : Env} {st : BotState} {ls : List String}
    (h : ∀ l ∈ ls, processLine env st l = (st, [])) :
    processLines env st ls = (st, []) := by
  induction ls with
  | nil => rfl
  | cons l ls ih =>
    have h1 : processLine env st l = (st, []) := h l (List.mem_cons_self l ls)
    unfold processLines
    rw [h1]
    simp only
    rw [ih (fun l' hl' => h l' (List.mem_cons_of_mem l hl'))]
    rfl

theorem processLine_create_dup {env : Env} {st : BotState} {line room : String}
    (hk : classifyLine line = LineKind.create)
    (hroom : st.currentRoom = some room)
    (hdup : regHas st.activeTournaments room = true) :
    processLine env st line = (st, []) := by
  unfold processLine
  rw [hk]
  unfold handleCreate
  rw [hroom]
  cases he : room == "" with
  | true => simp [he]
  | false => simp [he, hdup]

theorem processLine_create_insert {env : Env} {st : BotState}
    {line room : String}
    (hk : classifyLine line = LineKind.create)
    (hroom : st.currentRoom = some room) (hne : (room == "") = false)
    (habs : regHas st.activeTournaments room = false)
    (hch : env.channelOk = true) (hsend : env.sendOk = true) :
    processLine env st line =
      ({ st with activeTournaments := st.activeTournaments ++
          [(room, ⟨room, createFormat line, createName line,
            env.newMessageId, env.now⟩)] },
        [Effect.announceOpen (createName line) room]) := by
  unfold processLine
  rw [hk]
  unfold handleCreate
  rw [hroom]
  simp only [hne, Bool.false_eq_true, if_false, habs, hch, hsend, if_true]
  unfold regSet
  rw [habs]
  simp

/-! ### Concrete data used by the witness theorems -/

/-- An environment in which every Discord call succeeds and results JSON
never parses (the generic case). -/
def wEnv : Env := ⟨true, true, 42, 1000, fun _ => none⟩

/-- An environment in which `getDiscordChannel()` returns `null`. -/
def wEnvNoCh : Env := ⟨false, true, 42, 1000, fun _ => none⟩

/-- An environment in which `channel.send` rejects in the create branch. -/
def wEnvNoSend : Env := ⟨true, false, 42, 1000, fun _ => none⟩

def wTour : Tournament := ⟨"ou", "gen9ou", "A", 5, 0⟩

def wStEmpty : BotState := ⟨[], some "ou"⟩

def wStOne : BotState := ⟨[("ou", wTour)], some "ou"⟩

def wStUnset : BotState := ⟨[], none⟩

def wCreate : String := "|tournament|create|gen9ou|Elimination|8|A|x"

def wCreate2 : String := "|tournament|create|gen9ou|Elimination|8|B|x"

def wEnd : String := "|tournament|end|\x7bbad"

/-! ### Claim theorems -/

/-- C4: a termination event (end, forceend or expire) attributed to a room
with no corresponding open registry entry is a no-op: no crash, no registry
mutation, and no sink calls. -/
theorem termination_without_entry_noop (env : Env) (st : BotState)
    (line : String)
    (hk : classifyLine line = LineKind.tournEnd ∨
      classifyLine line = LineKind.forceEnd)
    (hmiss : curTour st = none) :
    processLine env st line = (st, []) := by
  obtain ⟨reg, cr⟩ := st
  rcases hk with h | h
  · unfold processLine
    rw [h]
    cases cr with
    | none => rfl
    | some r =>
      simp only [curTour] at hmiss
      simp [handleEnd, hmiss]
  · unfold processLine
    rw [h]
    cases cr with
    | none => rfl
    | some r =>
      simp only [curTour] at hmiss
      simp [handleForceEnd, hmiss]

theorem termination_without_entry_noop_witness :
    curTour wStEmpty = none ∧
    processLine wEnv wStEmpty "|tournament|end|\x7b\x7d" = (wStEmpty, []) :=
  ⟨by decide,
    termination_without_entry_noop wEnv wStEmpty "|tournament|end|\x7b\x7d"
      (Or.inl (by decide)) (by decide)⟩

/-- C8: while the room cursor is unset, every tournament event line
(create, end, forceend, expire) is dropped: no state change, no sink
calls. -/
theorem unset_cursor_drops_events (env : Env) (st : BotState) (line : String)
    (hunset : st.currentRoom = none)
    (hk : classifyLine line = LineKind.create ∨
      classifyLine line = LineKind.tournEnd ∨
      classifyLine line = LineKind.forceEnd) :
    processLine env st line = (st, []) := by
  rcases hk with h | h | h <;>
    simp [processLine, h, handleCreate, handleEnd, handleForceEnd, hunset]

theorem unset_cursor_drops_events_witness :
    wStUnset.currentRoom = none ∧
    processLine wEnv wStUnset wCreate = (wStUnset, []) :=
  ⟨by decide,
    unset_cursor_drops_events wEnv wStUnset wCreate (by decide)
      (Or.inl (by decide))⟩

/-- C2: when the announce-open side effect fails — the channel is
unavailable or the send rejects — the create branch leaves the whole state
(in particular the registry) unchanged, so a later create event for the
same room may retry. -/
theorem announce_failure_blocks_insert (env : Env) (st : BotState)
    (line : String)
    (hk : classifyLine line = LineKind.create)
    (hfail : env.channelOk = false ∨ env.sendOk = false) :
    (processLine env st line).1 = st := by
  obtain ⟨reg, cr⟩ := st
  simp only [processLine, hk]
  unfold handleCreate
  cases cr with
  | none => rfl
  | some room =>
    rcases hfail with h | h <;> simp only [h] <;> split_ifs <;>
      first | rfl | contradiction

theorem announce_failure_blocks_insert_witness :
    wEnvNoCh.channelOk = false ∧
    (processLine wEnvNoCh wStEmpty wCreate).1 = wStEmpty :=
  ⟨by decide,
    announce_failure_blocks_insert wEnvNoCh wStEmpty wCreate (by decide)
      (Or.inl (by decide))⟩

/-- C10: replying to the `/tournaments` query command is read-only: for
every registry state and room-cursor value the state after the handler is
the state before, whichever of the two reply forms is sent. -/
theorem tournaments_query_readonly (st : BotState) :
    (handleTournamentsCommand st).1 = st := by
  unfold handleTournamentsCommand
  split <;> rfl

/-- C1: among a sequence of create events attributed to the same room,
starting from a state with no registry entry for that room, only the first
one announces and inserts; every subsequent create event for that room is a
no-op (no announcement, no registry change) while the entry exists. -/
theorem create_dedup_per_room (env : Env) (st : BotState) (room l : String)
    (ls : List String)
    (hroom : st.currentRoom = some room) (hne : (room == "") = false)
    (habs : regHas st.activeTournaments room = false)
    (hch : env.channelOk = true) (hsend : env.sendOk = true)
    (hl : classifyLine l = LineKind.create)
    (hls : ∀ l' ∈ ls, classifyLine l' = LineKind.create) :
    regHas (processLine env st l).1.activeTournaments room = true ∧
    (processLine env st l).2 = [Effect.announceOpen (createName l) room] ∧
    processLines env st (l :: ls) =
      ((processLine env st l).1, [Effect.announceOpen (createName l) room]) := by
  have hstep := processLine_create_insert hl hroom hne habs hch hsend
  have hnone : regGet st.activeTournaments room = none := by
    unfold regHas at habs
    cases hg : regGet st.activeTournaments room with
    | none => rfl
    | some t => rw [hg] at habs; simp at habs
  have hhas : regHas (processLine env st l).1.activeTournaments room = true := by
    rw [hstep]
    exact regHas_append_of_none _ hnone
  have hcur : (processLine env st l).1.currentRoom = some room := by
    rw [hstep]
    exact hroom
  have hnoop : processLines env (processLine env st l).1 ls =
      ((processLine env st l).1, []) := by
    apply processLines_of_noop
    intro l' hl'
    exact processLine_create_dup (hls l' hl') hcur hhas
  refine ⟨hhas, ?_, ?_⟩
  · rw [hstep]
  · unfold processLines
    simp only
    rw [hnoop]
    rw [hstep]
    simp

theorem create_dedup_per_room_witness :
    regHas (processLine wEnv wStEmpty wCreate).1.activeTournaments "ou" = true ∧
    (processLine wEnv wStEmpty wCreate).2 = [Effect.announceOpen "A" "ou"] ∧
    processLines wEnv wStEmpty [wCreate, wCreate2] =
      ((processLine wEnv wStEmpty wCreate).1, [Effect.announceOpen "A" "ou"]) :=
  create_dedup_per_room wEnv wStEmpty "ou" wCreate [wCreate2] (by decide)
    (by decide) (by decide) (by decide) (by decide) (by decide) (by decide)

theorem regGet_eq_none_of_regHas_false {reg : Registry} {k : String}
    (h : regHas reg k = false) : regGet reg k = none := by
  unfold regHas at h
  cases hg : regGet reg k with
  | none => rfl
  | some t => rw [hg] at h; simp at h

theorem processLine_end_found {env : Env} {st : BotState} {line room : String}
    {tour : Tournament}
    (hk : classifyLine line = LineKind.tournEnd)
    (hroom : st.currentRoom = some room)
    (htour : regGet st.activeTournaments room = some tour)
    (hch : env.channelOk = true) :
    processLine env st line =
      ({ st with activeTournaments := regDelete st.activeTournaments room },
        [(match env.parseResults (strDrop line 16) with
          | some l =>
            if l.length != 0 then
              Effect.announceResults tour.name (l.getD 0 []) l[1]? l[2]?
            else Effect.announceFinished tour.name
          | none => Effect.announceFinished tour.name),
          Effect.retract tour.messageId]) := by
  obtain ⟨reg, cr⟩ := st
  simp only at hroom htour
  subst hroom
  simp only [processLine, hk]
  unfold handleEnd
  simp [htour, hch]

/-- C5: on an end event whose payload after the 16-character
`|tournament|end|` prefix does not parse (the model of a `JSON.parse`
exception, swallowed as absent results), processing the line emits the
generic finished message, attempts the retraction, and still removes the
matching registry entry. -/
theorem malformed_end_payload_generic (env : Env) (st : BotState)
    (line room : String) (tour : Tournament)
    (hk : classifyLine line = LineKind.tournEnd)
    (hroom : st.currentRoom = some room)
    (htour : regGet st.activeTournaments room = some tour)
    (hjson : env.parseResults (strDrop line 16) = none)
    (hch : env.channelOk = true) :
    processLine env st line =
      ({ st with activeTournaments := regDelete st.activeTournaments room },
        [Effect.announceFinished tour.name, Effect.retract tour.messageId]) ∧
    regGet (processLine env st line).1.activeTournaments room = none := by
  have h := processLine_end_found hk hroom htour hch
  simp only [hjson] at h
  refine ⟨h, ?_⟩
  rw [h]
  exact regGet_regDelete_self _ _

theorem malformed_end_payload_generic_witness :
    wEnv.parseResults (strDrop wEnd 16) = none ∧
    processLine wEnv wStOne wEnd =
      ({ wStOne with
          activeTournaments := regDelete wStOne.activeTournaments "ou" },
        [Effect.announceFinished wTour.name, Effect.retract wTour.messageId]) ∧
    regGet (processLine wEnv wStOne wEnd).1.activeTournaments "ou" = none :=
  ⟨by decide,
    (malformed_end_payload_generic wEnv wStOne wEnd "ou" wTour (by decide)
      (by decide) (by decide) (by decide) (by decide)).1,
    (malformed_end_payload_generic wEnv wStOne wEnd "ou" wTour (by decide)
      (by decide) (by decide) (by decide) (by decide)).2⟩

/-- C3: starting from a state whose registry has no entry for the current
room, a create event followed by an end event attributed to that room
leaves the registry exactly as it started (in particular without that key)
and performs exactly one announce-open, exactly one end notification — a
result summary when results are present, the generic finished message
otherwise — and exactly one attempt to retract the original
announcement. -/
theorem create_end_roundtrip (env : Env) (st : BotState) (room cl el : String)
    (hroom : st.currentRoom = some room) (hne : (room == "") = false)
    (habs : regHas st.activeTournaments room = false)
    (hch : env.channelOk = true) (hsend : env.sendOk = true)
    (hcl : classifyLine cl = LineKind.create)
    (hel : classifyLine el = LineKind.tournEnd) :
    (processLines env st [cl, el]).1 = st ∧
    regHas (processLines env st [cl, el]).1.activeTournaments room = false ∧
    ∃ notif,
      (processLines env st [cl, el]).2 =
        [Effect.announceOpen (createName cl) room, notif,
          Effect.retract env.newMessageId] ∧
      (notif = Effect.announceFinished (createName cl) ∨
        ∃ w r t, notif = Effect.announceResults (createName cl) w r t) := by
  have hnone : regGet st.activeTournaments room = none :=
    regGet_eq_none_of_regHas_false habs
  have h1 := processLine_create_insert hcl hroom hne habs hch hsend
  have hcur1 : ({ st with activeTournaments := st.activeTournaments ++
      [(room, ⟨room, createFormat cl, createName cl, env.newMessageId,
        env.now⟩)] } : BotState).currentRoom = some room := hroom
  have hget1 : regGet ({ st with activeTournaments :=
      st.activeTournaments ++ [(room, ⟨room, createFormat cl, createName cl,
        env.newMessageId, env.now⟩)] } : BotState).activeTournaments room =
      some ⟨room, createFormat cl, createName cl, env.newMessageId,
        env.now⟩ :=
    regGet_append_of_none _ hnone
  have h2 := processLine_end_found hel hcur1 hget1 hch
  have hdel : regDelete (st.activeTournaments ++
      [(room, (⟨room, createFormat cl, createName cl, env.newMessageId,
        env.now⟩ : Tournament))]) room = st.activeTournaments :=
    regDelete_append_singleton_self _ hnone
  have hall : processLines env st [cl, el] =
      (st, [Effect.announceOpen (createName cl) room,
        (match env.parseResults (strDrop el 16) with
          | some l =>
            if l.length != 0 then
              Effect.announceResults (createName cl) (l.getD 0 []) l[1]? l[2]?
            else Effect.announceFinished (createName cl)
          | none => Effect.announceFinished (createName cl)),
        Effect.retract env.newMessageId]) := by
    unfold processLines
    rw [h1]
    simp only
    unfold processLines
    rw [h2]
    simp only
    unfold processLines
    simp only [hdel, List.append_nil, List.nil_append]
    rfl
  refine ⟨by rw [hall], by rw [hall]; exact habs, ?_⟩
  refine ⟨_, by rw [hall], ?_⟩
  cases hp : env.parseResults (strDrop el 16) with
  | none => left; rfl
  | some l =>
    by_cases hl : (l.length != 0) = true
    · right
      refine ⟨l.getD 0 [], l[1]?, l[2]?, ?_⟩
      simp [hl]
    · left
      simp [hl]

theorem create_end_roundtrip_witness :
    (processLines wEnv wStEmpty [wCreate, wEnd]).1 = wStEmpty ∧
    regHas (processLines wEnv wStEmpty [wCreate, wEnd]).1.activeTournaments
      "ou" = false ∧
    ∃ notif,
      (processLines wEnv wStEmpty [wCreate, wEnd]).2 =
        [Effect.announceOpen (createName wCreate) "ou", notif,
          Effect.retract wEnv.newMessageId] ∧
      (notif = Effect.announceFinished (createName wCreate) ∨
        ∃ w r t, notif = Effect.announceResults (createName wCreate) w r t) :=
  create_end_roundtrip wEnv wStEmpty "ou" wCreate wEnd (by decide) (by decide)
    (by decide) (by decide) (by decide) (by decide) (by decide)

/-- C6, counterexample to the claim as stated: on a create line whose
field 6 is present but empty, the code stores and announces the empty
string rather than falling back to the format — `??` only replaces an
absent (nullish) field, not an empty one. -/
theorem create_empty_name_counterexample :
    (splitOnCh '|' "|tournament|create|gen9ou|Elimination|8|").getD 6
      "MISSING" = "" ∧
    createFormat "|tournament|create|gen9ou|Elimination|8|" = "gen9ou" ∧
    createName "|tournament|create|gen9ou|Elimination|8|" = "" ∧
    (processLine wEnv wStEmpty "|tournament|create|gen9ou|Elimination|8|").2 =
      [Effect.announceOpen "" "ou"] ∧
    ("" : String) ≠ "gen9ou" := by
  refine ⟨by decide, by decide, by decide, by decide, by decide⟩

/-- C6, amended: splitting a create line on `|` yields the format at field
index 3 and the display name at field index 6; the stored and announced
name falls back to the format exactly when field 6 is absent — a present
but empty field 6 is used as-is. -/
theorem create_field_extraction (env : Env) (st : BotState)
    (room line : String)
    (hroom : st.currentRoom = some room) (hne : (room == "") = false)
    (habs : regHas st.activeTournaments room = false)
    (hch : env.channelOk = true) (hsend : env.sendOk = true)
    (hk : classifyLine line = LineKind.create) :
    regGet (processLine env st line).1.activeTournaments room =
      some ⟨room, createFormat line, createName line, env.newMessageId,
        env.now⟩ ∧
    (processLine env st line).2 =
      [Effect.announceOpen (createName line) room] ∧
    createFormat line = (splitOnCh '|' line).getD 3 "" ∧
    (∀ n, (splitOnCh '|' line)[6]? = some n → createName line = n) ∧
    ((splitOnCh '|' line)[6]? = none → createName line = createFormat line) := by
  have hnone : regGet st.activeTournaments room = none :=
    regGet_eq_none_of_regHas_false habs
  have h1 := processLine_create_insert hk hroom hne habs hch hsend
  refine ⟨?_, by rw [h1], rfl, ?_, ?_⟩
  · rw [h1]
    exact regGet_append_of_none _ hnone
  · intro n hn
    unfold createName
    rw [List.getD_eq_getElem?_getD, hn]
    rfl
  · intro hn
    unfold createName
    rw [List.getD_eq_getElem?_getD, hn]
    rfl

theorem create_field_extraction_witness :
    regGet (processLine wEnv wStEmpty wCreate).1.activeTournaments "ou" =
      some ⟨"ou", createFormat wCreate, createName wCreate,
        wEnv.newMessageId, wEnv.now⟩ ∧
    (processLine wEnv wStEmpty wCreate).2 =
      [Effect.announceOpen (createName wCreate) "ou"] ∧
    createFormat wCreate = (splitOnCh '|' wCreate).getD 3 "" ∧
    (∀ n, (splitOnCh '|' wCreate)[6]? = some n → createName wCreate = n) ∧
    ((splitOnCh '|' wCreate)[6]? = none →
      createName wCreate = createFormat wCreate) :=
  create_field_extraction wEnv wStEmpty "ou" wCreate (by decide) (by decide)
    (by decide) (by decide) (by decide) (by decide)

/-! ### Sweeper lemmas -/

theorem sweep_registry_eq (c : Bool) (now : Nat) (reg : Registry) :
    (sweep c now reg).1 =
      reg.filter (fun p => now - p.2.startTime < MAX_TOURNAMENT_AGE) := by
  induction reg with
  | nil => rfl
  | cons hd tl ih =>
    obtain ⟨room, tour⟩ := hd
    unfold sweep
    by_cases h : now - tour.startTime < MAX_TOURNAMENT_AGE
    · simp [h, List.filter_cons, ih]
    · simp [h, List.filter_cons, ih]

theorem sweep_effects_eq (now : Nat) (reg : Registry) :
    (sweep true now reg).2 =
      (reg.filter (fun p => MAX_TOURNAMENT_AGE ≤ now - p.2.startTime)).map
        (fun p => Effect.retract p.2.messageId) := by
  induction reg with
  | nil => rfl
  | cons hd tl ih =>
    obtain ⟨room, tour⟩ := hd
    unfold sweep
    by_cases h : now - tour.startTime < MAX_TOURNAMENT_AGE
    · have h2 : ¬ MAX_TOURNAMENT_AGE ≤ now - tour.startTime := by omega
      simp [h, h2, List.filter_cons, ih]
    · have h2 : MAX_TOURNAMENT_AGE ≤ now - tour.startTime := by omega
      simp [h, h2, List.filter_cons, ih]

theorem sweep_of_all_young {c : Bool} {now : Nat} {reg : Registry}
    (h : ∀ p ∈ reg, now - p.2.startTime < MAX_TOURNAMENT_AGE) :
    sweep c now reg = (reg, []) := by
  induction reg with
  | nil => rfl
  | cons hd tl ih =>
    obtain ⟨room, tour⟩ := hd
    unfold sweep
    have h1 := h (room, tour) (List.mem_cons_self _ _)
    simp only at h1
    rw [if_pos h1]
    rw [ih (fun p hp => h p (List.mem_cons_of_mem _ hp))]

/-- C7: a sweep tick removes exactly the registry entries whose age
`now - startTime` has reached the max-age threshold, attempts one
retraction per evicted entry (when the channel is reachable), keeps every
younger entry untouched, and an immediately following second sweep with no
new creates is a no-op on the registry (and emits nothing). -/
theorem sweep_evicts_stale_idempotent (c : Bool) (now : Nat)
    (reg : Registry) :
    (sweep c now reg).1 =
      reg.filter (fun p => now - p.2.startTime < MAX_TOURNAMENT_AGE) ∧
    (sweep true now reg).2 =
      (reg.filter (fun p => MAX_TOURNAMENT_AGE ≤ now - p.2.startTime)).map
        (fun p => Effect.retract p.2.messageId) ∧
    sweep c now (sweep c now reg).1 = ((sweep c now reg).1, []) := by
  refine ⟨sweep_registry_eq c now reg, sweep_effects_eq now reg, ?_⟩
  apply sweep_of_all_young
  intro p hp
  rw [sweep_registry_eq] at hp
  exact of_decide_eq_true (List.mem_filter.mp hp).2

/-! ### Registry key invariant (C9) -/

/-- Every key of the registry equals the `room` field of its record. -/
def roomKeyConsistent (reg : Registry) : Prop := ∀ p ∈ reg, p.2.room = p.1

theorem roomKeyConsistent_regDelete {reg : Registry} (k : String)
    (h : roomKeyConsistent reg) : roomKeyConsistent (regDelete reg k) :=
  fun p hp => h p (List.mem_filter.mp hp).1

theorem roomKeyConsistent_regSet {reg : Registry} {k : String}
    {v : Tournament} (hv : v.room = k) (h : roomKeyConsistent reg) :
    roomKeyConsistent (regSet reg k v) := by
  unfold regSet
  split_ifs
  · intro p hp
    obtain ⟨q, hq, hfq⟩ := List.mem_map.mp hp
    by_cases he : (q.1 == k) = true
    · simp only [he, if_pos] at hfq
      rw [← hfq]
      exact hv
    · simp only [he, Bool.false_eq_true, if_false] at hfq
      rw [← hfq]
      exact h q hq
  · intro p hp
    rcases List.mem_append.mp hp with h1 | h1
    · exact h p h1
    · simp only [List.mem_singleton] at h1
      rw [h1]
      exact hv

/-- C9: for every key in the registry the stored record's `room` field
equals the key, and this invariant is preserved by every operation: the
create-branch insert, the end removal, the forceend/expire removal, the
room-marker and unclassified lines (which leave the registry alone), and
the sweep eviction. -/
theorem registry_key_room_invariant (env : Env) (st : BotState)
    (line : String) (c : Bool) (now : Nat)
    (h : roomKeyConsistent st.activeTournaments) :
    roomKeyConsistent (processLine env st line).1.activeTournaments ∧
    roomKeyConsistent (sweep c now st.activeTournaments).1 := by
  obtain ⟨reg, cr⟩ := st
  simp only at h
  constructor
  · cases hk : classifyLine line with
    | roomMarker => simpa [processLine, hk] using h
    | other => simpa [processLine, hk] using h
    | create =>
      simp only [processLine, hk]
      unfold handleCreate
      cases cr with
      | none => exact h
      | some room =>
        dsimp only
        split_ifs
        · exact h
        · exact h
        · exact roomKeyConsistent_regSet rfl h
        · exact h
        · exact h
    | tournEnd =>
      simp only [processLine, hk]
      unfold handleEnd
      cases cr with
      | none => exact h
      | some room =>
        dsimp only
        cases hg : regGet reg room with
        | none => exact h
        | some tour =>
          dsimp only
          split_ifs <;> exact roomKeyConsistent_regDelete room h
    | forceEnd =>
      simp only [processLine, hk]
      unfold handleForceEnd
      cases cr with
      | none => exact h
      | some room =>
        dsimp only
        cases hg : regGet reg room with
        | none => exact h
        | some tour =>
          dsimp only
          split_ifs <;> exact roomKeyConsistent_regDelete room h
  · rw [sweep_registry_eq]
    intro p hp
    exact h p (List.mem_filter.mp hp).1

theorem registry_key_room_invariant_witness :
    roomKeyConsistent wStOne.activeTournaments ∧
    (roomKeyConsistent (processLine wEnv wStOne wEnd).1.activeTournaments ∧
      roomKeyConsistent (sweep true 99 wStOne.activeTournaments).1) :=
  ⟨by unfold roomKeyConsistent; decide,
    registry_key_room_invariant wEnv wStOne wEnd true 99
      (by unfold roomKeyConsistent; decide)⟩
